import Mathlib

/-!
Shallow embedding of `src/main.py` of ubuntu-drive-folder-sync.

The daemon mirrors a local directory tree onto a mounted Google Drive
volume.  We embed the pure decision logic of the source functions
`is_drive_available`, `mount_google_drive`, `get_remote_file_hash`,
`compute_file_hash`, `sync_file` and `sync_all_files` as Lean functions
over an explicit world state.  Platform effects (Gio file operations,
the GLib main loop, I/O errors) are represented by explicit state
components and failure-injection sets; the distinct early-return points
of `sync_file` are represented by a `SyncOutcome` value, matching the
spec's return contract of a single-file sync.
-/

set_option autoImplicit false

namespace DriveSync

/-- The constant the source calls GOOGLE_DRIVE_PREFIX: the URI scheme
head `"google-drive://"` used both for matching mounted volumes and for
building remote file URIs. -/
def GOOGLE_DRIVE_SCHEME : String := "google-drive://"

/-- Does the character list `hay` start with `needle`?  Models Python's
`str.startswith` (over the decoded characters). -/
def startsWithChars : List Char → List Char → Bool
  | _, [] => true
  | [], _ :: _ => false
  | h :: hs, n :: ns => (h = n) && startsWithChars hs ns

/-- Does the character list `hay` contain `needle` as a contiguous run?
Models Python's `needle in hay` on strings. -/
def containsChars : List Char → List Char → Bool
  | [], needle => needle.isEmpty
  | hay@(_ :: t), needle => startsWithChars hay needle || containsChars t needle

/-- Python `pre in s` substring test, over strings. -/
def strContains (s pre : String) : Bool :=
  containsChars s.toList pre.toList

/-- Python `s.startswith(pre)`, over strings. -/
def pyStartsWith (s pre : String) : Bool :=
  startsWithChars s.toList pre.toList

/-- Split a character list on `'/'`, keeping empty pieces (Python
`s.split('/')`). -/
def splitSlashAux : List Char → List Char → List (List Char)
  | [], acc => [acc.reverse]
  | c :: rest, acc =>
    if c = '/' then acc.reverse :: splitSlashAux rest [] else splitSlashAux rest (c :: acc)

/-- Path components of `s`: Python `[x for x in s.split('/') if x]`,
exactly the normalization `posixpath.relpath` applies to its inputs. -/
def splitPath (s : String) : List String :=
  ((splitSlashAux s.toList []).filter (fun cs => !cs.isEmpty)).map String.mk

/-- Drop the common leading run of two component lists, returning both
remainders (the common-prefix step of `posixpath.relpath`). -/
def dropCommon : List String → List String → List String × List String
  | a :: as, b :: bs => if a = b then dropCommon as bs else (a :: as, b :: bs)
  | as, bs => (as, bs)

/-- Python `os.path.relpath(p, start)` on POSIX paths: components of
both are compared, the common run dropped, the remainder of `start`
replaced by `".."` steps and joined with `"/"` (`"."` when empty). -/
def relpath (p start : String) : String :=
  let rests := dropCommon (splitPath start) (splitPath p)
  let comps := List.replicate rests.1.length ".." ++ rests.2
  if comps.isEmpty then "." else String.intercalate "/" comps

/-- Does `s` end in `'/'`? -/
def endsWithSlash (s : String) : Bool :=
  match s.toList.getLast? with
  | some c => c = '/'
  | none => false

/-- Python `os.path.join(a, b)` on POSIX paths: `b` absolute wins;
otherwise concatenate, inserting `"/"` unless `a` is empty or already
ends in a slash. -/
def pathJoin (a b : String) : String :=
  if pyStartsWith b "/" then b
  else if a = "" || endsWithSlash a then a ++ b
  else a ++ "/" ++ b

/-- Python `s.lstrip('/')`: drop every leading slash. -/
def lstripSlash (s : String) : String :=
  String.mk (s.toList.dropWhile (fun c => c = '/'))

/-- Gio `File.get_parent` on a URI, modelled as the text before the last
`'/'` (`none` when no slash occurs). -/
def parentUri (uri : String) : Option String :=
  match uri.toList.reverse.dropWhile (fun c => c ≠ '/') with
  | [] => none
  | _ :: rest => some (String.mk rest.reverse)

/-! ### Content hashing (ContentHasher) -/

/-- Fuel-indexed chunked read loop: read blocks of at most 4096 bytes
until the stream is exhausted.  Each iteration consumes at least one
byte, so `bs.length` fuel is enough to drain the stream. -/
def readChunksAux : Nat → List Nat → List Nat
  | 0, _ => []
  | fuel + 1, bs =>
    if bs.isEmpty then [] else bs.take 4096 ++ readChunksAux fuel (bs.drop 4096)

/-- The chunked read loop shared by both hashers: read blocks of at most
4096 bytes until the stream is exhausted, concatenating what was fed to
the streaming hash accumulator. -/
def readChunks (bs : List Nat) : List Nat :=
  readChunksAux bs.length bs

/-- SHA-256 hex digest of a byte stream, modelled as a deterministic,
never-empty encoding of the bytes fed to the accumulator.  The sync
logic relies only on determinism of the digest and on the sentinel for
a failed computation being the empty string, never on properties of the
concrete hash. -/
def hexdigest (bs : List Nat) : String :=
  "sha256:" ++ String.intercalate "," (bs.map Nat.repr)

/-- Remote volume contents: existing remote directories (by URI) and
remote regular files (URI to byte content), first binding wins. -/
structure RemoteFS where
  dirs : List String
  files : List (String × List Nat)
deriving DecidableEq, Repr

/-- Injected I/O failures: each list holds the keys (local path or
remote URI) whose corresponding platform operation raises. -/
structure FailEnv where
  localReadFail : List String
  remoteReadFail : List String
  mkdirFail : List String
  deleteFail : List String
  copyFail : List String
deriving DecidableEq, Repr

/-- Source `compute_file_hash`: SHA-256 of a local file read in 4096
byte chunks; any raised I/O error (injected, or the file missing) is
caught and the sentinel `""` returned. -/
def compute_file_hash (localFS : List (String × List Nat)) (localReadFail : List String)
    (file_path : String) : String :=
  if localReadFail.contains file_path then ""
  else
    match localFS.lookup file_path with
    | none => ""
    | some bs => hexdigest (readChunks bs)

/-- Source `get_remote_file_hash`: SHA-256 of a remote file read in 4096
byte chunks via Gio; any raised error is caught and the sentinel `""`
returned. -/
def get_remote_file_hash (rfs : RemoteFS) (remoteReadFail : List String)
    (uri : String) : String :=
  if remoteReadFail.contains uri then ""
  else
    match rfs.files.lookup uri with
    | none => ""
    | some bs => hexdigest (readChunks bs)

/-! ### Drive availability and mounting -/

/-- Resolution of a platform mount request: `mount_finish` reports
success, reports failure, or raises; the callback handles all three and
quits the main loop. -/
inductive MountRes where
  | success
  | failure
  | exc
deriving DecidableEq, Repr

/-- One known volume as exposed by `Gio.VolumeMonitor.get_volumes`: its
identifier values, how a mount request on it resolves, and the root URI
the platform adds to the mount list when the request succeeds. -/
structure Volume where
  identifiers : List String
  mountRes : MountRes
  mountedRootUri : String
deriving DecidableEq, Repr

/-- Does one identifier value match: it starts with the Google Drive
scheme and contains the configured drive user. -/
def idMatches (user idv : String) : Bool :=
  pyStartsWith idv GOOGLE_DRIVE_SCHEME && strContains idv user

/-- Does any identifier of the volume match (the inner loop of
`mount_google_drive`: non-matching identifiers are passed over, the
first matching one triggers the mount). -/
def volMatches (user : String) (v : Volume) : Bool :=
  v.identifiers.any (idMatches user)

/-- The volume loop of source `mount_google_drive`: scan the volumes in
order; on the first volume with a matching identifier, issue one mount
request, block until it resolves (success, failure or exception) and
return.  Returns the list of mount requests issued together with the
mount list after the call. -/
def mountLoop (user : String) : List Volume → List String → List Volume × List String
  | [], mounts => ([], mounts)
  | v :: rest, mounts =>
    if volMatches user v then
      match v.mountRes with
      | MountRes.success => ([v], v.mountedRootUri :: mounts)
      | MountRes.failure => ([v], mounts)
      | MountRes.exc => ([v], mounts)
    else mountLoop user rest mounts

/-- Source `mount_google_drive`: attempt to mount Google Drive, issuing
at most one mount request; when no volume matches, fall through to the
warning and return with nothing mounted. -/
def mount_google_drive (user : String) (vols : List Volume) (mounts : List String) :
    List Volume × List String :=
  mountLoop user vols mounts

/-- Source `is_drive_available`: true iff some mounted volume's root URI
starts with the Google Drive scheme and contains the drive user. -/
def is_drive_available (user : String) (mounts : List String) : Bool :=
  mounts.any (fun uri => pyStartsWith uri GOOGLE_DRIVE_SCHEME && strContains uri user)

/-! ### The sync decision engine (`sync_file`) -/

/-- The configuration triple loaded by `load_config` into the module
level bindings LOCAL_FOLDER, GOOGLE_DRIVE_FOLDER and DRIVE_USER. -/
structure Config where
  LOCAL_FOLDER : String
  GOOGLE_DRIVE_FOLDER : String
  DRIVE_USER : String
deriving DecidableEq, Repr

/-- The whole world a sync attempt can observe: the mounted volumes, the
known volumes, the local files, the remote volume contents and the
injected failures. -/
structure World where
  mounts : List String
  volumes : List Volume
  localFS : List (String × List Nat)
  remote : RemoteFS
  fail : FailEnv
deriving DecidableEq, Repr

/-- Reasons of the `failed` outcome, one per guarded early return of
`sync_file`. -/
inductive FailReason where
  | parentDirError
  | deleteError
  | copyError
deriving DecidableEq, Repr

/-- Return contract of a single-file sync: one constructor per distinct
return point of `sync_file`. -/
inductive SyncOutcome where
  | skippedNoChange
  | created
  | replaced
  | skippedNoDrive
  | failed (reason : FailReason)
deriving DecidableEq, Repr

/-- Observable operations one `sync_file` call performed against the
platform: mount requests issued, remote directories created, remote
content reads for hashing, remote deletes, and copies (local path,
remote URI). -/
structure Trace where
  mountReqs : List Volume
  mkdirs : List String
  remoteReads : List String
  deletes : List String
  copies : List (String × String)
deriving DecidableEq, Repr

/-- The empty trace. -/
def Trace.empty : Trace :=
  { mountReqs := [], mkdirs := [], remoteReads := [], deletes := [], copies := [] }

/-- Result of one `sync_file` call: its outcome, the world after it, and
the operations it performed. -/
structure SyncResult where
  outcome : SyncOutcome
  world : World
  trace : Trace
deriving DecidableEq, Repr

/-- The remote target URI `sync_file` builds for a local path:
`f"{GOOGLE_DRIVE_PREFIX}{DRIVE_USER}/{path.join(GOOGLE_DRIVE_FOLDER, rel_path).lstrip('/')}"`
with `rel_path = path.relpath(file_path, LOCAL_FOLDER)`. -/
def remoteTargetUri (cfg : Config) (file_path : String) : String :=
  GOOGLE_DRIVE_SCHEME ++ cfg.DRIVE_USER ++ "/" ++
    lstripSlash (pathJoin cfg.GOOGLE_DRIVE_FOLDER (relpath file_path cfg.LOCAL_FOLDER))

/-- Remove the binding of `uri` from a remote file table (Gio
`File.delete`, and the implicit replace of an overwriting copy). -/
def eraseKey (uri : String) (files : List (String × List Nat)) : List (String × List Nat) :=
  files.filter (fun kv => !(kv.1 == uri))

/-- Final copy step of `sync_file`: `src_file.copy(dest_file, OVERWRITE)`.
A raised error (injected, or the local file unreadable) is caught and
reported as a failed outcome; on success the remote target now holds the
local content, and the outcome distinguishes whether the delete branch
ran (`existed`). -/
def copyStep (file_path uri : String) (existed : Bool)
    (w : World) (tr : Trace) : SyncResult :=
  if w.fail.copyFail.contains uri then
    { outcome := SyncOutcome.failed FailReason.copyError, world := w, trace := tr }
  else
    match w.localFS.lookup file_path with
    | none => { outcome := SyncOutcome.failed FailReason.copyError, world := w, trace := tr }
    | some bs =>
      { outcome := if existed then SyncOutcome.replaced else SyncOutcome.created
        world := { w with remote := { w.remote with
                     files := (uri, bs) :: eraseKey uri w.remote.files } }
        trace := { tr with copies := tr.copies ++ [(file_path, uri)] } }

/-- The exists-branch of `sync_file` (step 4 of the spec): hashes of the
remote object and the local file are compared; a non-empty remote digest
equal to the local digest skips, otherwise the remote object is deleted
(a raised delete error aborts with a failed outcome) and the copy step
runs with `existed := true`. -/
def hashCheckStep (file_path uri : String)
    (w : World) (tr : Trace) : SyncResult :=
  let remote_hash := get_remote_file_hash w.remote w.fail.remoteReadFail uri
  let local_hash := compute_file_hash w.localFS w.fail.localReadFail file_path
  let tr1 := { tr with remoteReads := tr.remoteReads ++ [uri] }
  if remote_hash ≠ "" ∧ remote_hash = local_hash then
    { outcome := SyncOutcome.skippedNoChange, world := w, trace := tr1 }
  else if w.fail.deleteFail.contains uri then
    { outcome := SyncOutcome.failed FailReason.deleteError, world := w, trace := tr1 }
  else
    copyStep file_path uri true
      { w with remote := { w.remote with files := eraseKey uri w.remote.files } }
      { tr1 with deletes := tr1.deletes ++ [uri] }

/-- Steps 4 and 5 of `sync_file` after the parent directory is ensured:
branch on `dest_file.query_exists()`. -/
def existsCheckStep (file_path uri : String)
    (w : World) (tr : Trace) : SyncResult :=
  if (w.remote.files.lookup uri).isSome then hashCheckStep file_path uri w tr
  else copyStep file_path uri false w tr

/-- Body of `sync_file` once the drive is available: build the remote
target, ensure the remote parent directory exists (a raised
`make_directory_with_parents` error is caught and reported), then run
the existence check and copy logic. -/
def syncBody (cfg : Config) (file_path : String) (w : World) (tr : Trace) : SyncResult :=
  let uri := remoteTargetUri cfg file_path
  match parentUri uri with
  | some pd =>
    if !(w.remote.dirs.contains pd) then
      if w.fail.mkdirFail.contains pd then
        { outcome := SyncOutcome.failed FailReason.parentDirError, world := w, trace := tr }
      else
        existsCheckStep file_path uri
          { w with remote := { w.remote with dirs := pd :: w.remote.dirs } }
          { tr with mkdirs := tr.mkdirs ++ [pd] }
    else existsCheckStep file_path uri w tr
  | none => existsCheckStep file_path uri w tr

/-- Source `sync_file`: check availability, mount and re-check when
absent (returning the skipped-no-drive outcome when still absent), then
run the sync body. -/
def sync_file (cfg : Config) (w : World) (file_path : String) : SyncResult :=
  if is_drive_available cfg.DRIVE_USER w.mounts then
    syncBody cfg file_path w Trace.empty
  else
    let mr := mount_google_drive cfg.DRIVE_USER w.volumes w.mounts
    let w1 := { w with mounts := mr.2 }
    let tr1 := { Trace.empty with mountReqs := mr.1 }
    if is_drive_available cfg.DRIVE_USER mr.2 then
      syncBody cfg file_path w1 tr1
    else
      { outcome := SyncOutcome.skippedNoDrive, world := w1, trace := tr1 }

/-- The code realization of the spec's `MountCoordinator.mountIfNeeded`
boolean: `sync_file` and `sync_all_files` call `mount_google_drive()` and
then re-check `is_drive_available()`; the re-check is the returned
boolean. -/
def mountIfNeeded (user : String) (vols : List Volume) (mounts : List String) : Bool :=
  is_drive_available user (mount_google_drive user vols mounts).2

/-! ### Full tree sync (`sync_all_files`) -/

/-- A local directory: its regular file names and its named
subdirectories.  The local tree `os.walk` traverses. -/
inductive FsTree where
  | node (files : List String) (subdirs : List (String × FsTree))

mutual
/-- Python `os.walk(p)` on the tree rooted (at path `p`): top-down
yields of `(dirpath, filenames)`; the unused `dirnames` component of the
triple is omitted since `sync_all_files` discards it. -/
def walk (p : String) : FsTree → List (String × List String)
  | FsTree.node files subs => (p, files) :: walkList p subs

/-- The recursive descent of `os.walk` into the named subdirectories,
in order. -/
def walkList (p : String) : List (String × FsTree) → List (String × List String)
  | [] => []
  | (n, t) :: rest => walk (pathJoin p n) t ++ walkList p rest
end

/-- The paths `sync_all_files` hands to `sync_file`: the double loop
`for root, _, files in walk(LOCAL_FOLDER): for file in files:
sync_file(path.join(root, file))`. -/
def walkFiles (cfg : Config) (t : FsTree) : List String :=
  (walk cfg.LOCAL_FOLDER t).flatMap (fun rf => rf.2.map (fun f => pathJoin rf.1 f))

mutual
/-- Reference enumeration of the regular files of the tree rooted at
`p`, by full path: the files of each directory, descending into every
nested subdirectory, never listing a directory entry itself. -/
def filesRec (p : String) : FsTree → List String
  | FsTree.node files subs => files.map (fun f => pathJoin p f) ++ filesRecList p subs

/-- Files of a list of named subdirectories of `p`, in order. -/
def filesRecList (p : String) : List (String × FsTree) → List String
  | [] => []
  | (n, t) :: rest => filesRec (pathJoin p n) t ++ filesRecList p rest
end

mutual
/-- Every directory path of the tree rooted at `p` (the entries
`sync_all_files` must never hand to `sync_file`). -/
def dirPaths (p : String) : FsTree → List String
  | FsTree.node _ subs => p :: dirPathsList p subs

/-- Directory paths of a list of named subdirectories of `p`. -/
def dirPathsList (p : String) : List (String × FsTree) → List String
  | [] => []
  | (n, t) :: rest => dirPaths (pathJoin p n) t ++ dirPathsList p rest
end

/-- Sequential fold of `sync_file` over a list of paths, threading the
world exactly as the loop body of `sync_all_files` does. -/
def syncFold (cfg : Config) : List String → World → World
  | [], w => w
  | p :: rest, w => syncFold cfg rest (sync_file cfg w p).world

/-- Result of one `sync_all_files` pass: the paths it invoked
`sync_file` on, the mount requests its own up-front check issued, and
the world after the pass. -/
structure SyncAllResult where
  invoked : List String
  mountReqs : List Volume
  world : World
deriving DecidableEq, Repr

/-- Source `sync_all_files`: one availability check (with one mount
attempt) up front; when the drive is still unavailable the whole pass
is skipped, otherwise every file yielded by the walk is handed to
`sync_file` in order. -/
def sync_all_files (cfg : Config) (t : FsTree) (w : World) : SyncAllResult :=
  if is_drive_available cfg.DRIVE_USER w.mounts then
    { invoked := walkFiles cfg t
      mountReqs := []
      world := syncFold cfg (walkFiles cfg t) w }
  else
    let mr := mount_google_drive cfg.DRIVE_USER w.volumes w.mounts
    let w1 := { w with mounts := mr.2 }
    if is_drive_available cfg.DRIVE_USER mr.2 then
      { invoked := walkFiles cfg t
        mountReqs := mr.1
        world := syncFold cfg (walkFiles cfg t) w1 }
    else
      { invoked := [], mountReqs := mr.1, world := w1 }

/-! ### Helper lemmas -/

/-- A successfully computed digest is never the failure sentinel. -/
theorem hexdigest_ne_empty (bs : List Nat) : hexdigest bs ≠ "" := by
  intro h
  have hlen := congrArg String.length h
  rw [hexdigest, String.length_append] at hlen
  have h7 : ("sha256:" : String).length = 7 := rfl
  have h0 : ("" : String).length = 0 := rfl
  rw [h7, h0] at hlen
  omega

/-- With enough fuel, the chunked read loop drains the whole stream. -/
theorem readChunksAux_eq (fuel : Nat) :
    ∀ bs : List Nat, bs.length ≤ fuel → readChunksAux fuel bs = bs := by
  induction fuel with
  | zero =>
    intro bs h
    rw [Nat.le_zero] at h
    rw [List.length_eq_zero.mp h]
    rfl
  | succ fuel ih =>
    intro bs h
    cases bs with
    | nil => rfl
    | cons b t =>
      rw [readChunksAux, if_neg (by simp)]
      rw [ih ((b :: t).drop 4096) (by simp only [List.length_drop, List.length_cons] at *; omega),
        List.take_append_drop]

/-- The chunked read loop feeds the whole stream, in order, to the hash
accumulator. -/
theorem readChunks_eq (bs : List Nat) : readChunks bs = bs :=
  readChunksAux_eq bs.length bs (Nat.le_refl _)

/-- Successful local hash: file present, no injected failure. -/
theorem compute_file_hash_some (localFS : List (String × List Nat)) (fl : List String)
    (p : String) (bs : List Nat) (h : localFS.lookup p = some bs)
    (hf : fl.contains p = false) :
    compute_file_hash localFS fl p = hexdigest (readChunks bs) := by
  have hf2 : ¬ p ∈ fl := by simpa using hf
  simp [compute_file_hash, h, hf2]

/-- Successful remote hash: object present, no injected failure. -/
theorem get_remote_file_hash_some (rfs : RemoteFS) (fl : List String)
    (u : String) (bs : List Nat) (h : rfs.files.lookup u = some bs)
    (hf : fl.contains u = false) :
    get_remote_file_hash rfs fl u = hexdigest (readChunks bs) := by
  have hf2 : ¬ u ∈ fl := by simpa using hf
  simp [get_remote_file_hash, h, hf2]

/-- The remote hash only reads the remote file table, not the directory
set. -/
theorem get_remote_file_hash_dirs (d : List String) (rfs : RemoteFS)
    (fl : List String) (u : String) :
    get_remote_file_hash { rfs with dirs := d } fl u = get_remote_file_hash rfs fl u := rfl

/-- Looking up the key just inserted. -/
theorem lookup_cons_self (u : String) (bs : List Nat) (l : List (String × List Nat)) :
    ((u, bs) :: l).lookup u = some bs := by
  simp [List.lookup]

/-- Characterization of the volume loop: the requests issued are exactly
the first matching volume (when any), and the mount list afterwards
reflects how that one request resolved. -/
theorem mountLoop_spec (user : String) (vols : List Volume) (mounts : List String) :
    (mountLoop user vols mounts).1 = (vols.find? (volMatches user)).toList ∧
    (mountLoop user vols mounts).2 =
      (match vols.find? (volMatches user) with
       | none => mounts
       | some v =>
         match v.mountRes with
         | MountRes.success => v.mountedRootUri :: mounts
         | MountRes.failure => mounts
         | MountRes.exc => mounts) := by
  induction vols with
  | nil => simp [mountLoop]
  | cons v rest ih =>
    by_cases h : volMatches user v
    · rw [mountLoop, if_pos h, List.find?_cons_of_pos _ h]
      cases hres : v.mountRes <;> simp [hres]
    · rw [mountLoop, if_neg h, List.find?_cons_of_neg _ h]
      exact ih

/-- The remote hash and local hash read nothing but the remote file
table, the local table and the failure sets. -/
theorem get_remote_file_hash_congr (rfs rfs2 : RemoteFS) (fl : List String) (u : String)
    (h : rfs.files = rfs2.files) :
    get_remote_file_hash rfs fl u = get_remote_file_hash rfs2 fl u := by
  rw [get_remote_file_hash, get_remote_file_hash, h]

/-- The exists-branch skips exactly when the remote digest is non-empty
and equal to the local digest; the skip performs no delete and no copy
and leaves the world untouched. -/
theorem existsCheck_skip (p uri : String) (w1 : World) (tr : Trace)
    (h_exists : (w1.remote.files.lookup uri).isSome = true)
    (h_ne : get_remote_file_hash w1.remote w1.fail.remoteReadFail uri ≠ "")
    (h_eq : get_remote_file_hash w1.remote w1.fail.remoteReadFail uri =
        compute_file_hash w1.localFS w1.fail.localReadFail p) :
    (existsCheckStep p uri w1 tr).outcome = SyncOutcome.skippedNoChange ∧
    (existsCheckStep p uri w1 tr).trace.deletes = tr.deletes ∧
    (existsCheckStep p uri w1 tr).trace.copies = tr.copies ∧
    (existsCheckStep p uri w1 tr).world = w1 := by
  rw [existsCheckStep, if_pos h_exists]
  simp only [hashCheckStep]
  rw [if_pos (And.intro h_ne h_eq)]
  exact ⟨rfl, rfl, rfl, rfl⟩

/-- Skip lemma: when the drive is available, the remote object exists,
the parent directory step cannot abort, and the two digests are
successfully computed and equal, `sync_file` skips: no delete, no copy,
remote file table untouched. -/
theorem sync_file_skip_lemma (cfg : Config) (w : World) (p : String)
    (h_avail : is_drive_available cfg.DRIVE_USER w.mounts = true)
    (h_parent : ∀ pd, parentUri (remoteTargetUri cfg p) = some pd →
        w.remote.dirs.contains pd = true ∨ w.fail.mkdirFail.contains pd = false)
    (h_exists : (w.remote.files.lookup (remoteTargetUri cfg p)).isSome = true)
    (h_ne : get_remote_file_hash w.remote w.fail.remoteReadFail (remoteTargetUri cfg p) ≠ "")
    (h_eq : get_remote_file_hash w.remote w.fail.remoteReadFail (remoteTargetUri cfg p) =
        compute_file_hash w.localFS w.fail.localReadFail p) :
    (sync_file cfg w p).outcome = SyncOutcome.skippedNoChange ∧
    (sync_file cfg w p).trace.deletes = [] ∧
    (sync_file cfg w p).trace.copies = [] ∧
    (sync_file cfg w p).world.remote.files = w.remote.files ∧
    (sync_file cfg w p).world.localFS = w.localFS := by
  rw [sync_file, if_pos h_avail]
  rcases hp : parentUri (remoteTargetUri cfg p) with - | pd
  · have h := existsCheck_skip p (remoteTargetUri cfg p) w Trace.empty h_exists h_ne h_eq
    simp only [syncBody, hp]
    exact ⟨h.1, h.2.1, h.2.2.1, by rw [h.2.2.2], by rw [h.2.2.2]⟩
  · by_cases hdir : w.remote.dirs.contains pd = true
    · have h := existsCheck_skip p (remoteTargetUri cfg p) w Trace.empty h_exists h_ne h_eq
      simp only [syncBody, hp, hdir, Bool.not_true, Bool.false_eq_true, if_false]
      exact ⟨h.1, h.2.1, h.2.2.1, by rw [h.2.2.2], by rw [h.2.2.2]⟩
    · have hdir2 : w.remote.dirs.contains pd = false := by
        cases hcd : w.remote.dirs.contains pd
        · rfl
        · exact absurd hcd hdir
      rcases h_parent pd hp with hcontra | hmk
      · exact absurd hcontra hdir
      · set w2 : World := { w with remote := { w.remote with dirs := pd :: w.remote.dirs } }
          with hw2
        have hfiles : w2.remote.files = w.remote.files := rfl
        have hfail : w2.fail = w.fail := rfl
        have hlocal : w2.localFS = w.localFS := rfl
        have hhash : get_remote_file_hash w2.remote w2.fail.remoteReadFail
            (remoteTargetUri cfg p) =
            get_remote_file_hash w.remote w.fail.remoteReadFail (remoteTargetUri cfg p) :=
          get_remote_file_hash_congr _ _ _ _ hfiles
        have h := existsCheck_skip p (remoteTargetUri cfg p) w2
          { Trace.empty with mkdirs := Trace.empty.mkdirs ++ [pd] }
          (by rw [hfiles]; exact h_exists)
          (by rw [hhash]; exact h_ne)
          (by rw [hhash, hfail, hlocal]; exact h_eq)
        simp only [syncBody, hp, hdir2, Bool.not_false, if_true, hmk, Bool.false_eq_true,
          if_false]
        refine ⟨h.1, h.2.1, h.2.2.1, ?_, ?_⟩
        · rw [h.2.2.2]
        · rw [h.2.2.2]

/-! ### Concrete instances used by witnesses and counterexamples -/

/-- Example configuration of the spec's addressing example. -/
def exCfg : Config :=
  { LOCAL_FOLDER := "/home/u/docs", GOOGLE_DRIVE_FOLDER := "sync/docs",
    DRIVE_USER := "u@example" }

/-- Example local file path. -/
def exPath : String := "/home/u/docs/a/b.txt"

/-- Remote URI of `exPath` under `exCfg`. -/
def exUri : String := "google-drive://u@example/sync/docs/a/b.txt"

/-- Remote parent directory URI of `exUri`. -/
def exParent : String := "google-drive://u@example/sync/docs/a"

/-- No injected failures. -/
def exNoFail : FailEnv :=
  { localReadFail := [], remoteReadFail := [], mkdirFail := [], deleteFail := [],
    copyFail := [] }

/-- Mounted drive, empty remote, one local file. -/
def exWorldNew : World :=
  { mounts := ["google-drive://u@example/"]
    volumes := []
    localFS := [(exPath, [1, 2, 3])]
    remote := { dirs := [], files := [] }
    fail := exNoFail }

/-- Same, but the remote object already holds the local content. -/
def exWorldEq : World :=
  { exWorldNew with remote := { dirs := [exParent], files := [(exUri, [1, 2, 3])] } }

/-- Same, but the remote object holds different content. -/
def exWorldDiff : World :=
  { exWorldNew with remote := { dirs := [exParent], files := [(exUri, [9])] } }

/-- No drive mounted and no volume to mount. -/
def exWorldNoDrive : World :=
  { exWorldNew with mounts := [] }

/-- Remote object differs and its hash read raises. -/
def exWorldHashFail : World :=
  { exWorldDiff with fail := { exNoFail with remoteReadFail := [exUri] } }

/-! ### Claim theorems -/

/-- C2: when the remote object exists, the parent-directory step cannot
abort, and both digests are successfully computed (non-sentinel) and
equal, `sync_file` performs no delete and no copy on the remote and
returns the skipped-no-change outcome, leaving the remote file table
untouched. -/
theorem sync_file_digest_skip (cfg : Config) (w : World) (p : String)
    (h_avail : is_drive_available cfg.DRIVE_USER w.mounts = true)
    (h_parent : ∀ pd, parentUri (remoteTargetUri cfg p) = some pd →
        w.remote.dirs.contains pd = true ∨ w.fail.mkdirFail.contains pd = false)
    (h_exists : (w.remote.files.lookup (remoteTargetUri cfg p)).isSome = true)
    (h_ne : get_remote_file_hash w.remote w.fail.remoteReadFail (remoteTargetUri cfg p) ≠ "")
    (h_eq : get_remote_file_hash w.remote w.fail.remoteReadFail (remoteTargetUri cfg p) =
        compute_file_hash w.localFS w.fail.localReadFail p) :
    (sync_file cfg w p).outcome = SyncOutcome.skippedNoChange ∧
    (sync_file cfg w p).trace.deletes = [] ∧
    (sync_file cfg w p).trace.copies = [] ∧
    (sync_file cfg w p).world.remote.files = w.remote.files :=
  have h := sync_file_skip_lemma cfg w p h_avail h_parent h_exists h_ne h_eq
  ⟨h.1, h.2.1, h.2.2.1, h.2.2.2.1⟩

/-- Witness for C2 at a concrete world whose remote object equals the
local file. -/
theorem sync_file_digest_skip_witness :
    (sync_file exCfg exWorldEq exPath).outcome = SyncOutcome.skippedNoChange ∧
    (sync_file exCfg exWorldEq exPath).trace.deletes = [] ∧
    (sync_file exCfg exWorldEq exPath).trace.copies = [] ∧
    (sync_file exCfg exWorldEq exPath).world.remote.files = exWorldEq.remote.files :=
  sync_file_digest_skip exCfg exWorldEq exPath (by decide)
    (by
      intro pd hpd
      have h2 : parentUri (remoteTargetUri exCfg exPath) = some exParent := by decide
      rw [h2] at hpd
      obtain rfl : pd = exParent := (Option.some.inj hpd).symm
      left
      decide)
    (by decide) (by decide) (by decide)

/-- C3: when the drive is not available and the mount attempt does not
make it available, `sync_file` returns skipped-no-drive and touches the
remote in no way: no directory creation, no digest read, no delete, no
copy, and the remote state is unchanged. -/
theorem sync_file_no_drive (cfg : Config) (w : World) (p : String)
    (h1 : is_drive_available cfg.DRIVE_USER w.mounts = false)
    (h2 : is_drive_available cfg.DRIVE_USER
        (mount_google_drive cfg.DRIVE_USER w.volumes w.mounts).2 = false) :
    (sync_file cfg w p).outcome = SyncOutcome.skippedNoDrive ∧
    (sync_file cfg w p).trace.mkdirs = [] ∧
    (sync_file cfg w p).trace.remoteReads = [] ∧
    (sync_file cfg w p).trace.deletes = [] ∧
    (sync_file cfg w p).trace.copies = [] ∧
    (sync_file cfg w p).world.remote = w.remote ∧
    (sync_file cfg w p).world.localFS = w.localFS := by
  simp only [sync_file, h1, h2, Bool.false_eq_true, if_false, Trace.empty]
  exact ⟨trivial, trivial, trivial, trivial, trivial, trivial, trivial⟩

/-- Witness for C3: empty mount list and no mountable volume. -/
theorem sync_file_no_drive_witness :
    (sync_file exCfg exWorldNoDrive exPath).outcome = SyncOutcome.skippedNoDrive ∧
    (sync_file exCfg exWorldNoDrive exPath).trace.mkdirs = [] ∧
    (sync_file exCfg exWorldNoDrive exPath).trace.remoteReads = [] ∧
    (sync_file exCfg exWorldNoDrive exPath).trace.deletes = [] ∧
    (sync_file exCfg exWorldNoDrive exPath).trace.copies = [] ∧
    (sync_file exCfg exWorldNoDrive exPath).world.remote = exWorldNoDrive.remote ∧
    (sync_file exCfg exWorldNoDrive exPath).world.localFS = exWorldNoDrive.localFS :=
  sync_file_no_drive exCfg exWorldNoDrive exPath (by decide) (by decide)

/-- C7: the code's realization of `mountIfNeeded` returns true exactly
when availability is confirmed after the mount attempt, and when no
known volume matches the account identifier it issues no mount request,
leaves the mount list unchanged and reduces to the prior availability
(in particular false when the drive was unavailable). -/
theorem mount_if_needed_contract (user : String) (vols : List Volume)
    (mounts : List String) :
    (mountIfNeeded user vols mounts = true ↔
      is_drive_available user (mount_google_drive user vols mounts).2 = true) ∧
    (vols.find? (volMatches user) = none →
      (mount_google_drive user vols mounts).1 = [] ∧
      (mount_google_drive user vols mounts).2 = mounts ∧
      mountIfNeeded user vols mounts = is_drive_available user mounts) := by
  constructor
  · exact Iff.rfl
  · intro hnone
    have h := mountLoop_spec user vols mounts
    rw [mount_google_drive] at *
    rw [hnone] at h
    refine ⟨by rw [h.1]; rfl, by rw [h.2], ?_⟩
    rw [mountIfNeeded, mount_google_drive, h.2]

/-- Witness for C7 with no matching volume. -/
theorem mount_if_needed_contract_witness :
    (mount_google_drive "u@example" [] []).1 = [] ∧
    (mount_google_drive "u@example" [] []).2 = [] ∧
    mountIfNeeded "u@example" [] [] = is_drive_available "u@example" [] :=
  (mount_if_needed_contract "u@example" [] []).2 (by decide)

/-- C10: one call of the mount coordinator issues at most one mount
request: exactly the first volume carrying a matching identifier (none
when no volume matches), and the mount list afterwards reflects how
that single request resolved, after which the call returns. -/
theorem mount_single_request (user : String) (vols : List Volume)
    (mounts : List String) :
    (mount_google_drive user vols mounts).1.length ≤ 1 ∧
    (mount_google_drive user vols mounts).1 = (vols.find? (volMatches user)).toList ∧
    (mount_google_drive user vols mounts).2 =
      (match vols.find? (volMatches user) with
       | none => mounts
       | some v =>
         match v.mountRes with
         | MountRes.success => v.mountedRootUri :: mounts
         | MountRes.failure => mounts
         | MountRes.exc => mounts) := by
  have h := mountLoop_spec user vols mounts
  rw [mount_google_drive]
  refine ⟨?_, h.1, h.2⟩
  rw [h.1]
  cases vols.find? (volMatches user) <;> simp

/-- C9: when the drive is unavailable and the single up-front mount
attempt leaves it unavailable, `sync_all_files` aborts the whole pass:
`sync_file` is invoked on no file at all, the remote is untouched, and
at most one mount request was issued. -/
theorem sync_all_aborts_unavailable (cfg : Config) (t : FsTree) (w : World)
    (h1 : is_drive_available cfg.DRIVE_USER w.mounts = false)
    (h2 : is_drive_available cfg.DRIVE_USER
        (mount_google_drive cfg.DRIVE_USER w.volumes w.mounts).2 = false) :
    (sync_all_files cfg t w).invoked = [] ∧
    (sync_all_files cfg t w).world.remote = w.remote ∧
    (sync_all_files cfg t w).world.localFS = w.localFS ∧
    (sync_all_files cfg t w).mountReqs.length ≤ 1 := by
  simp only [sync_all_files, h1, h2, Bool.false_eq_true, if_false]
  refine ⟨trivial, trivial, trivial, ?_⟩
  have h := mountLoop_spec cfg.DRIVE_USER w.volumes w.mounts
  rw [mount_google_drive] at *
  rw [h.1]
  cases w.volumes.find? (volMatches cfg.DRIVE_USER) <;> simp

/-- Witness for C9: nonempty local tree, no drive, no volume. -/
theorem sync_all_aborts_unavailable_witness :
    (sync_all_files exCfg (FsTree.node ["f.txt"] []) exWorldNoDrive).invoked = [] ∧
    (sync_all_files exCfg (FsTree.node ["f.txt"] []) exWorldNoDrive).world.remote
        = exWorldNoDrive.remote ∧
    (sync_all_files exCfg (FsTree.node ["f.txt"] []) exWorldNoDrive).world.localFS
        = exWorldNoDrive.localFS ∧
    (sync_all_files exCfg (FsTree.node ["f.txt"] []) exWorldNoDrive).mountReqs.length ≤ 1 :=
  sync_all_aborts_unavailable exCfg (FsTree.node ["f.txt"] []) exWorldNoDrive
    (by decide) (by decide)

/-- The copy step never produces the skipped-no-change outcome. -/
theorem copyStep_ne_skip (fp uri : String) (ex : Bool) (w : World) (tr : Trace) :
    (copyStep fp uri ex w tr).outcome ≠ SyncOutcome.skippedNoChange := by
  rw [copyStep]
  by_cases hc : w.fail.copyFail.contains uri = true
  · rw [if_pos hc]; simp
  · rw [if_neg hc]
    cases w.localFS.lookup fp with
    | none => simp
    | some bs => cases ex <;> simp

/-- The exists-and-copy logic returns skipped-no-change only when the
remote digest is non-sentinel and equal to the local digest. -/
theorem existsCheck_skip_requires (p uri : String) (w1 : World) (tr : Trace)
    (hout : (existsCheckStep p uri w1 tr).outcome = SyncOutcome.skippedNoChange) :
    get_remote_file_hash w1.remote w1.fail.remoteReadFail uri ≠ "" ∧
    get_remote_file_hash w1.remote w1.fail.remoteReadFail uri =
      compute_file_hash w1.localFS w1.fail.localReadFail p := by
  rw [existsCheckStep] at hout
  by_cases hex : (w1.remote.files.lookup uri).isSome = true
  · rw [if_pos hex] at hout
    simp only [hashCheckStep] at hout
    by_cases hcond : get_remote_file_hash w1.remote w1.fail.remoteReadFail uri ≠ "" ∧
        get_remote_file_hash w1.remote w1.fail.remoteReadFail uri =
          compute_file_hash w1.localFS w1.fail.localReadFail p
    · exact hcond
    · rw [if_neg hcond] at hout
      by_cases hdel : w1.fail.deleteFail.contains uri = true
      · rw [if_pos hdel] at hout; exact absurd hout (by simp)
      · rw [if_neg hdel] at hout
        exact absurd hout (copyStep_ne_skip p uri true _ _)
  · rw [if_neg hex] at hout
    exact absurd hout (copyStep_ne_skip p uri false _ _)

/-- The sync body returns skipped-no-change only when the remote digest
is non-sentinel and equal to the local digest. -/
theorem syncBody_skip_requires (cfg : Config) (p : String) (w1 : World) (tr : Trace)
    (hout : (syncBody cfg p w1 tr).outcome = SyncOutcome.skippedNoChange) :
    get_remote_file_hash w1.remote w1.fail.remoteReadFail (remoteTargetUri cfg p) ≠ "" ∧
    get_remote_file_hash w1.remote w1.fail.remoteReadFail (remoteTargetUri cfg p) =
      compute_file_hash w1.localFS w1.fail.localReadFail p := by
  rw [syncBody] at hout
  rcases hp : parentUri (remoteTargetUri cfg p) with - | pd
  · rw [hp] at hout
    exact existsCheck_skip_requires p (remoteTargetUri cfg p) w1 tr hout
  · rw [hp] at hout
    simp only at hout
    by_cases hdir : w1.remote.dirs.contains pd = true
    · rw [hdir] at hout
      simp only [Bool.not_true, Bool.false_eq_true, if_false] at hout
      exact existsCheck_skip_requires p (remoteTargetUri cfg p) w1 tr hout
    · have hdir2 : w1.remote.dirs.contains pd = false := by
        cases hcd : w1.remote.dirs.contains pd
        · rfl
        · exact absurd hcd hdir
      rw [hdir2] at hout
      simp only [Bool.not_false, if_true] at hout
      by_cases hmk : w1.fail.mkdirFail.contains pd = true
      · rw [if_pos hmk] at hout
        exact absurd hout (by simp)
      · rw [if_neg hmk] at hout
        exact existsCheck_skip_requires p (remoteTargetUri cfg p)
          { w1 with remote := { w1.remote with dirs := pd :: w1.remote.dirs } }
          { tr with mkdirs := tr.mkdirs ++ [pd] } hout

/-- A `sync_file` call returns skipped-no-change only when the remote
digest it computed is non-sentinel and equal to the local digest. -/
theorem sync_file_skip_requires (cfg : Config) (w : World) (p : String)
    (hout : (sync_file cfg w p).outcome = SyncOutcome.skippedNoChange) :
    get_remote_file_hash w.remote w.fail.remoteReadFail (remoteTargetUri cfg p) ≠ "" ∧
    get_remote_file_hash w.remote w.fail.remoteReadFail (remoteTargetUri cfg p) =
      compute_file_hash w.localFS w.fail.localReadFail p := by
  rw [sync_file] at hout
  by_cases ha : is_drive_available cfg.DRIVE_USER w.mounts = true
  · rw [if_pos ha] at hout
    exact syncBody_skip_requires cfg p w Trace.empty hout
  · rw [if_neg ha] at hout
    simp only at hout
    by_cases hb : is_drive_available cfg.DRIVE_USER
        (mount_google_drive cfg.DRIVE_USER w.volumes w.mounts).2 = true
    · rw [if_pos hb] at hout
      exact syncBody_skip_requires cfg p
        { w with mounts := (mount_google_drive cfg.DRIVE_USER w.volumes w.mounts).2 }
        _ hout
    · rw [if_neg hb] at hout
      exact absurd hout (by simp)

/-- C4: a digest computation failure is caught and returns the sentinel
empty digest instead of raising, and a `sync_file` invocation whose
remote or local digest is the sentinel never returns skipped-no-change —
even when both digests are the sentinel and therefore equal. -/
theorem digest_failure_no_false_skip (cfg : Config) (w : World) (p : String) :
    (∀ u, w.fail.remoteReadFail.contains u = true →
        get_remote_file_hash w.remote w.fail.remoteReadFail u = "") ∧
    (∀ q, w.fail.localReadFail.contains q = true →
        compute_file_hash w.localFS w.fail.localReadFail q = "") ∧
    ((get_remote_file_hash w.remote w.fail.remoteReadFail (remoteTargetUri cfg p) = "" ∨
      compute_file_hash w.localFS w.fail.localReadFail p = "") →
      (sync_file cfg w p).outcome ≠ SyncOutcome.skippedNoChange) := by
  refine ⟨?_, ?_, ?_⟩
  · intro u hu
    rw [get_remote_file_hash, if_pos hu]
  · intro q hq
    rw [compute_file_hash, if_pos hq]
  · intro hsent hout
    have h := sync_file_skip_requires cfg w p hout
    rcases hsent with hr | hl
    · exact h.1 hr
    · rw [hl] at h
      exact h.1 h.2

/-- Witness for C4: the remote digest read raises, both objects exist
and differ, and the call does not skip. -/
theorem digest_failure_no_false_skip_witness :
    (sync_file exCfg exWorldHashFail exPath).outcome ≠ SyncOutcome.skippedNoChange :=
  (digest_failure_no_false_skip exCfg exWorldHashFail exPath).2.2 (Or.inl (by decide))

/-- A copy that cannot fail succeeds: the remote target now holds the
local bytes and nothing else of the world changed. -/
theorem copyStep_run (fp uri : String) (ex : Bool) (w : World) (tr : Trace) (bs : List Nat)
    (h_local : w.localFS.lookup fp = some bs)
    (h_cp : w.fail.copyFail.contains uri = false) :
    (copyStep fp uri ex w tr).outcome =
      (if ex then SyncOutcome.replaced else SyncOutcome.created) ∧
    (copyStep fp uri ex w tr).world.mounts = w.mounts ∧
    (copyStep fp uri ex w tr).world.localFS = w.localFS ∧
    (copyStep fp uri ex w tr).world.fail = w.fail ∧
    (copyStep fp uri ex w tr).world.remote.dirs = w.remote.dirs ∧
    (copyStep fp uri ex w tr).world.remote.files.lookup uri = some bs := by
  rw [copyStep, if_neg (by rw [h_cp]; exact Bool.false_ne_true), h_local]
  exact ⟨rfl, rfl, rfl, rfl, rfl, lookup_cons_self uri bs _⟩

/-- The exists-and-copy logic under no injected failures: the outcome is
one of created, replaced or skipped-no-change; the mount list, local
table, failure sets and remote directory set are unchanged; and
afterwards the remote target holds content whose digest equals the
local digest. -/
theorem existsCheck_run (p uri : String) (w1 : World) (tr : Trace) (bs : List Nat)
    (h_local : w1.localFS.lookup p = some bs)
    (h_lr : w1.fail.localReadFail.contains p = false)
    (h_rr : w1.fail.remoteReadFail.contains uri = false)
    (h_del : w1.fail.deleteFail.contains uri = false)
    (h_cp : w1.fail.copyFail.contains uri = false) :
    ((existsCheckStep p uri w1 tr).outcome = SyncOutcome.created ∨
     (existsCheckStep p uri w1 tr).outcome = SyncOutcome.replaced ∨
     (existsCheckStep p uri w1 tr).outcome = SyncOutcome.skippedNoChange) ∧
    (existsCheckStep p uri w1 tr).world.mounts = w1.mounts ∧
    (existsCheckStep p uri w1 tr).world.localFS = w1.localFS ∧
    (existsCheckStep p uri w1 tr).world.fail = w1.fail ∧
    (existsCheckStep p uri w1 tr).world.remote.dirs = w1.remote.dirs ∧
    (∃ cs, (existsCheckStep p uri w1 tr).world.remote.files.lookup uri = some cs ∧
        hexdigest (readChunks cs) = hexdigest (readChunks bs)) := by
  rw [existsCheckStep]
  by_cases hex : (w1.remote.files.lookup uri).isSome = true
  · obtain ⟨c, hc⟩ := Option.isSome_iff_exists.mp hex
    rw [if_pos hex]
    simp only [hashCheckStep]
    have hrh : get_remote_file_hash w1.remote w1.fail.remoteReadFail uri
        = hexdigest (readChunks c) := get_remote_file_hash_some _ _ _ _ hc h_rr
    have hlh : compute_file_hash w1.localFS w1.fail.localReadFail p
        = hexdigest (readChunks bs) := compute_file_hash_some _ _ _ _ h_local h_lr
    by_cases heq : hexdigest (readChunks c) = hexdigest (readChunks bs)
    · rw [if_pos (And.intro (by rw [hrh]; exact hexdigest_ne_empty (readChunks c))
        (by rw [hrh, hlh]; exact heq))]
      exact ⟨Or.inr (Or.inr rfl), rfl, rfl, rfl, rfl, ⟨c, hc, heq⟩⟩
    · rw [if_neg (fun hand => heq (by rw [← hrh, ← hlh]; exact hand.2))]
      rw [if_neg (by rw [h_del]; exact Bool.false_ne_true)]
      have hrun := copyStep_run p uri true
        { w1 with remote := { w1.remote with files := eraseKey uri w1.remote.files } }
        { { tr with remoteReads := tr.remoteReads ++ [uri] } with
            deletes := ({ tr with remoteReads := tr.remoteReads ++ [uri] }).deletes ++ [uri] }
        bs h_local h_cp
      have ho : (copyStep p uri true
          { w1 with remote := { w1.remote with files := eraseKey uri w1.remote.files } }
          { { tr with remoteReads := tr.remoteReads ++ [uri] } with
              deletes := ({ tr with remoteReads := tr.remoteReads ++ [uri] }).deletes ++ [uri] }
          ).outcome = SyncOutcome.replaced := hrun.1
      exact ⟨Or.inr (Or.inl ho), hrun.2.1, hrun.2.2.1, hrun.2.2.2.1, hrun.2.2.2.2.1,
        ⟨bs, hrun.2.2.2.2.2, rfl⟩⟩
  · rw [if_neg hex]
    have hrun := copyStep_run p uri false w1 tr bs h_local h_cp
    have ho : (copyStep p uri false w1 tr).outcome = SyncOutcome.created := hrun.1
    exact ⟨Or.inl ho, hrun.2.1, hrun.2.2.1, hrun.2.2.2.1, hrun.2.2.2.2.1,
      ⟨bs, hrun.2.2.2.2.2, rfl⟩⟩

/-- First call of `sync_file` under an available drive, a readable local
file and no injected failures at the target: it returns created,
replaced or skipped-no-change; it changes neither the mount list, the
local table nor the failure sets; afterwards the remote parent
directory exists and the remote target holds content whose digest
equals the local digest. -/
theorem sync_file_first_run (cfg : Config) (w : World) (p : String) (bs : List Nat)
    (h_avail : is_drive_available cfg.DRIVE_USER w.mounts = true)
    (h_local : w.localFS.lookup p = some bs)
    (h_lr : w.fail.localReadFail.contains p = false)
    (h_rr : w.fail.remoteReadFail.contains (remoteTargetUri cfg p) = false)
    (h_mk : ∀ pd, parentUri (remoteTargetUri cfg p) = some pd →
        w.fail.mkdirFail.contains pd = false)
    (h_del : w.fail.deleteFail.contains (remoteTargetUri cfg p) = false)
    (h_cp : w.fail.copyFail.contains (remoteTargetUri cfg p) = false) :
    ((sync_file cfg w p).outcome = SyncOutcome.created ∨
     (sync_file cfg w p).outcome = SyncOutcome.replaced ∨
     (sync_file cfg w p).outcome = SyncOutcome.skippedNoChange) ∧
    (sync_file cfg w p).world.mounts = w.mounts ∧
    (sync_file cfg w p).world.localFS = w.localFS ∧
    (sync_file cfg w p).world.fail = w.fail ∧
    (∀ pd, parentUri (remoteTargetUri cfg p) = some pd →
        (sync_file cfg w p).world.remote.dirs.contains pd = true) ∧
    (∃ cs, (sync_file cfg w p).world.remote.files.lookup (remoteTargetUri cfg p)
          = some cs ∧
        hexdigest (readChunks cs) = hexdigest (readChunks bs)) := by
  rw [sync_file, if_pos h_avail]
  rcases hp : parentUri (remoteTargetUri cfg p) with - | pd
  · simp only [syncBody, hp]
    have h := existsCheck_run p (remoteTargetUri cfg p) w Trace.empty bs
      h_local h_lr h_rr h_del h_cp
    refine ⟨h.1, h.2.1, h.2.2.1, h.2.2.2.1, ?_, h.2.2.2.2.2⟩
    intro pd hpd
    cases hpd
  · by_cases hdir : w.remote.dirs.contains pd = true
    · simp only [syncBody, hp, hdir, Bool.not_true, Bool.false_eq_true, if_false]
      have h := existsCheck_run p (remoteTargetUri cfg p) w Trace.empty bs
        h_local h_lr h_rr h_del h_cp
      refine ⟨h.1, h.2.1, h.2.2.1, h.2.2.2.1, ?_, h.2.2.2.2.2⟩
      intro pd2 hpd2
      obtain rfl : pd2 = pd := (Option.some.inj hpd2).symm
      rw [h.2.2.2.2.1]
      exact hdir
    · have hdir2 : w.remote.dirs.contains pd = false := by
        cases hcd : w.remote.dirs.contains pd
        · rfl
        · exact absurd hcd hdir
      simp only [syncBody, hp, hdir2, Bool.not_false, if_true,
        h_mk pd hp, Bool.false_eq_true, if_false]
      have h := existsCheck_run p (remoteTargetUri cfg p)
        { w with remote := { w.remote with dirs := pd :: w.remote.dirs } }
        { Trace.empty with mkdirs := Trace.empty.mkdirs ++ [pd] } bs
        h_local h_lr h_rr h_del h_cp
      refine ⟨h.1, h.2.1, h.2.2.1, h.2.2.2.1, ?_, h.2.2.2.2.2⟩
      intro pd2 hpd2
      obtain rfl : pd2 = pd := (Option.some.inj hpd2).symm
      rw [h.2.2.2.2.1]
      simp

/-- C1 (amended): with the drive available, the local file readable and
no injected failure at the target, the first `sync_file` call returns
created, replaced or skipped-no-change (skipped when the remote already
matched), and a second call with no intervening local change returns
skipped-no-change, performing no delete and no copy: afterwards the
remote target exists with digest equal to the local digest. -/
theorem sync_file_idempotent (cfg : Config) (w : World) (p : String) (bs : List Nat)
    (h_avail : is_drive_available cfg.DRIVE_USER w.mounts = true)
    (h_local : w.localFS.lookup p = some bs)
    (h_lr : w.fail.localReadFail.contains p = false)
    (h_rr : w.fail.remoteReadFail.contains (remoteTargetUri cfg p) = false)
    (h_mk : ∀ pd, parentUri (remoteTargetUri cfg p) = some pd →
        w.fail.mkdirFail.contains pd = false)
    (h_del : w.fail.deleteFail.contains (remoteTargetUri cfg p) = false)
    (h_cp : w.fail.copyFail.contains (remoteTargetUri cfg p) = false) :
    ((sync_file cfg w p).outcome = SyncOutcome.created ∨
     (sync_file cfg w p).outcome = SyncOutcome.replaced ∨
     (sync_file cfg w p).outcome = SyncOutcome.skippedNoChange) ∧
    (sync_file cfg (sync_file cfg w p).world p).outcome = SyncOutcome.skippedNoChange ∧
    (sync_file cfg (sync_file cfg w p).world p).trace.deletes = [] ∧
    (sync_file cfg (sync_file cfg w p).world p).trace.copies = [] := by
  have h1 := sync_file_first_run cfg w p bs h_avail h_local h_lr h_rr h_mk h_del h_cp
  obtain ⟨cs, hcs, hhash⟩ := h1.2.2.2.2.2
  have hfail1 : (sync_file cfg w p).world.fail = w.fail := h1.2.2.2.1
  have hloc1 : (sync_file cfg w p).world.localFS = w.localFS := h1.2.2.1
  have havail1 : is_drive_available cfg.DRIVE_USER (sync_file cfg w p).world.mounts = true := by
    rw [h1.2.1]; exact h_avail
  have hparent1 : ∀ pd, parentUri (remoteTargetUri cfg p) = some pd →
      (sync_file cfg w p).world.remote.dirs.contains pd = true ∨
      (sync_file cfg w p).world.fail.mkdirFail.contains pd = false :=
    fun pd hpd => Or.inl (h1.2.2.2.2.1 pd hpd)
  have hexists1 : ((sync_file cfg w p).world.remote.files.lookup
      (remoteTargetUri cfg p)).isSome = true := by
    rw [hcs]; rfl
  have hrh1 : get_remote_file_hash (sync_file cfg w p).world.remote
      (sync_file cfg w p).world.fail.remoteReadFail (remoteTargetUri cfg p)
      = hexdigest (readChunks cs) :=
    get_remote_file_hash_some _ _ _ _ hcs (by rw [hfail1]; exact h_rr)
  have hlh1 : compute_file_hash (sync_file cfg w p).world.localFS
      (sync_file cfg w p).world.fail.localReadFail p = hexdigest (readChunks bs) :=
    compute_file_hash_some _ _ _ _ (by rw [hloc1]; exact h_local)
      (by rw [hfail1]; exact h_lr)
  have h2 := sync_file_skip_lemma cfg (sync_file cfg w p).world p havail1 hparent1 hexists1
    (by rw [hrh1]; exact hexdigest_ne_empty (readChunks cs))
    (by rw [hrh1, hlh1]; exact hhash)
  exact ⟨h1.1, h2.1, h2.2.1, h2.2.2.1⟩

/-- Counterexample to C1 as stated: a reachable file whose remote copy
already matches (drive available, no failures, no intervening change)
yields skipped-no-change already on the first call, not
created-or-replaced. -/
theorem sync_file_idempotence_cex :
    is_drive_available exCfg.DRIVE_USER exWorldEq.mounts = true ∧
    (sync_file exCfg exWorldEq exPath).outcome = SyncOutcome.skippedNoChange ∧
    ¬ ((sync_file exCfg exWorldEq exPath).outcome = SyncOutcome.created ∨
       (sync_file exCfg exWorldEq exPath).outcome = SyncOutcome.replaced) := by
  decide

/-- Witness for the amended C1 at a fresh remote target: first call
creates, second call skips without delete or copy. -/
theorem sync_file_idempotent_witness :
    ((sync_file exCfg exWorldNew exPath).outcome = SyncOutcome.created ∨
     (sync_file exCfg exWorldNew exPath).outcome = SyncOutcome.replaced ∨
     (sync_file exCfg exWorldNew exPath).outcome = SyncOutcome.skippedNoChange) ∧
    (sync_file exCfg (sync_file exCfg exWorldNew exPath).world exPath).outcome
        = SyncOutcome.skippedNoChange ∧
    (sync_file exCfg (sync_file exCfg exWorldNew exPath).world exPath).trace.deletes = [] ∧
    (sync_file exCfg (sync_file exCfg exWorldNew exPath).world exPath).trace.copies = [] :=
  sync_file_idempotent exCfg exWorldNew exPath [1, 2, 3] (by decide) (by decide)
    (by decide) (by decide)
    (by
      intro pd hpd
      have h2 : parentUri (remoteTargetUri exCfg exPath) = some exParent := by decide
      rw [h2] at hpd
      obtain rfl : pd = exParent := (Option.some.inj hpd).symm
      decide)
    (by decide) (by decide)

/-- The copy step either fails with the copy-error outcome and appends
no copy, or appends exactly one copy and returns replaced or created
according to the `existed` flag. -/
theorem copyStep_cases (fp uri : String) (ex : Bool) (w : World) (tr : Trace) :
    ((copyStep fp uri ex w tr).outcome = SyncOutcome.failed FailReason.copyError ∧
     (copyStep fp uri ex w tr).trace.copies = tr.copies) ∨
    ((copyStep fp uri ex w tr).outcome =
        (if ex then SyncOutcome.replaced else SyncOutcome.created) ∧
     (copyStep fp uri ex w tr).trace.copies = tr.copies ++ [(fp, uri)]) := by
  rw [copyStep]
  by_cases hc : w.fail.copyFail.contains uri = true
  · rw [if_pos hc]; left; exact ⟨rfl, rfl⟩
  · rw [if_neg hc]
    cases w.localFS.lookup fp with
    | none => left; exact ⟨rfl, rfl⟩
    | some bs => right; exact ⟨rfl, rfl⟩

/-- The exists-and-copy logic either appends no copy, or appends exactly
one and returns replaced precisely when the remote object existed at
the check. -/
theorem existsCheck_cases (p uri : String) (w1 : World) (tr : Trace) :
    (existsCheckStep p uri w1 tr).trace.copies = tr.copies ∨
    ((existsCheckStep p uri w1 tr).trace.copies = tr.copies ++ [(p, uri)] ∧
     (existsCheckStep p uri w1 tr).outcome =
       (if (w1.remote.files.lookup uri).isSome then SyncOutcome.replaced
        else SyncOutcome.created)) := by
  rw [existsCheckStep]
  by_cases hex : (w1.remote.files.lookup uri).isSome = true
  · rw [if_pos hex]
    simp only [hashCheckStep]
    by_cases hcond : (get_remote_file_hash w1.remote w1.fail.remoteReadFail uri ≠ "" ∧
        get_remote_file_hash w1.remote w1.fail.remoteReadFail uri =
          compute_file_hash w1.localFS w1.fail.localReadFail p)
    · rw [if_pos hcond]; left; rfl
    · rw [if_neg hcond]
      by_cases hdel : w1.fail.deleteFail.contains uri = true
      · rw [if_pos hdel]; left; rfl
      · rw [if_neg hdel]
        rcases copyStep_cases p uri true
            { w1 with remote := { w1.remote with files := eraseKey uri w1.remote.files } }
            { { tr with remoteReads := tr.remoteReads ++ [uri] } with
                deletes := ({ tr with remoteReads := tr.remoteReads ++ [uri] }).deletes
                  ++ [uri] } with ⟨ho, hc⟩ | ⟨ho, hc⟩
        · left; exact hc
        · right
          refine ⟨hc, ?_⟩
          rw [ho, if_pos hex]
          simp
  · rw [if_neg hex]
    rcases copyStep_cases p uri false w1 tr with ⟨ho, hc⟩ | ⟨ho, hc⟩
    · left; exact hc
    · right
      refine ⟨hc, ?_⟩
      rw [ho, if_neg hex]
      simp

/-- When the sync body performed a copy, its outcome is replaced or
created according to whether the remote object existed at the check. -/
theorem syncBody_copy_outcome (cfg : Config) (p : String) (w1 : World) (tr : Trace)
    (htr : tr.copies = [])
    (hcp : (syncBody cfg p w1 tr).trace.copies ≠ []) :
    (syncBody cfg p w1 tr).outcome =
      (if (w1.remote.files.lookup (remoteTargetUri cfg p)).isSome
       then SyncOutcome.replaced else SyncOutcome.created) := by
  rcases hp : parentUri (remoteTargetUri cfg p) with - | pd
  · simp only [syncBody, hp] at hcp ⊢
    rcases existsCheck_cases p (remoteTargetUri cfg p) w1 tr with hl | ⟨-, hr⟩
    · rw [hl, htr] at hcp; exact absurd rfl hcp
    · exact hr
  · by_cases hdir : w1.remote.dirs.contains pd = true
    · simp only [syncBody, hp, hdir, Bool.not_true, Bool.false_eq_true, if_false] at hcp ⊢
      rcases existsCheck_cases p (remoteTargetUri cfg p) w1 tr with hl | ⟨-, hr⟩
      · rw [hl, htr] at hcp; exact absurd rfl hcp
      · exact hr
    · have hdir2 : w1.remote.dirs.contains pd = false := by
        cases hcd : w1.remote.dirs.contains pd
        · rfl
        · exact absurd hcd hdir
      by_cases hmk : w1.fail.mkdirFail.contains pd = true
      · simp only [syncBody, hp, hdir2, Bool.not_false, if_true] at hcp
        rw [if_pos hmk] at hcp
        exact absurd htr hcp
      · simp only [syncBody, hp, hdir2, Bool.not_false, if_true] at hcp ⊢
        rw [if_neg hmk] at hcp ⊢
        rcases existsCheck_cases p (remoteTargetUri cfg p)
            { w1 with remote := { w1.remote with dirs := pd :: w1.remote.dirs } }
            { tr with mkdirs := tr.mkdirs ++ [pd] } with hl | ⟨-, hr⟩
        · rw [hl] at hcp
          exact absurd htr hcp
        · exact hr

/-- C6: every `sync_file` invocation returns one of the five contracted
outcomes, and when it performed a copy the outcome is created when no
remote object existed at the target and replaced when one did. -/
theorem sync_outcome_contract (cfg : Config) (w : World) (p : String) :
    ((sync_file cfg w p).outcome = SyncOutcome.skippedNoChange ∨
     (sync_file cfg w p).outcome = SyncOutcome.created ∨
     (sync_file cfg w p).outcome = SyncOutcome.replaced ∨
     (sync_file cfg w p).outcome = SyncOutcome.skippedNoDrive ∨
     ∃ r, (sync_file cfg w p).outcome = SyncOutcome.failed r) ∧
    ((sync_file cfg w p).trace.copies ≠ [] →
      (sync_file cfg w p).outcome =
        (if (w.remote.files.lookup (remoteTargetUri cfg p)).isSome
         then SyncOutcome.replaced else SyncOutcome.created)) := by
  constructor
  · cases h : (sync_file cfg w p).outcome with
    | skippedNoChange => exact Or.inl rfl
    | created => exact Or.inr (Or.inl rfl)
    | replaced => exact Or.inr (Or.inr (Or.inl rfl))
    | skippedNoDrive => exact Or.inr (Or.inr (Or.inr (Or.inl rfl)))
    | failed r => exact Or.inr (Or.inr (Or.inr (Or.inr ⟨r, rfl⟩)))
  · intro hcp
    rw [sync_file] at hcp ⊢
    by_cases ha : is_drive_available cfg.DRIVE_USER w.mounts = true
    · rw [if_pos ha] at hcp ⊢
      exact syncBody_copy_outcome cfg p w Trace.empty rfl hcp
    · rw [if_neg ha] at hcp ⊢
      simp only at hcp ⊢
      by_cases hb : is_drive_available cfg.DRIVE_USER
          (mount_google_drive cfg.DRIVE_USER w.volumes w.mounts).2 = true
      · rw [if_pos hb] at hcp ⊢
        exact syncBody_copy_outcome cfg p
          { w with mounts := (mount_google_drive cfg.DRIVE_USER w.volumes w.mounts).2 }
          { Trace.empty with
              mountReqs := (mount_google_drive cfg.DRIVE_USER w.volumes w.mounts).1 }
          rfl hcp
      · rw [if_neg hb] at hcp
        exact absurd rfl hcp

/-- Witness for C6 at a world whose remote object differs: the copy ran
and the outcome matches the existence check. -/
theorem sync_outcome_contract_witness :
    (sync_file exCfg exWorldDiff exPath).outcome =
      (if (exWorldDiff.remote.files.lookup (remoteTargetUri exCfg exPath)).isSome
       then SyncOutcome.replaced else SyncOutcome.created) :=
  (sync_outcome_contract exCfg exWorldDiff exPath).2 (by decide)

/-- The copy step never touches mkdirs, remote reads or deletes, and
appends at most the one copy `(fp, uri)`. -/
theorem copyStep_trace (fp uri : String) (ex : Bool) (w : World) (tr : Trace) :
    (copyStep fp uri ex w tr).trace.mkdirs = tr.mkdirs ∧
    (copyStep fp uri ex w tr).trace.remoteReads = tr.remoteReads ∧
    (copyStep fp uri ex w tr).trace.deletes = tr.deletes ∧
    ((copyStep fp uri ex w tr).trace.copies = tr.copies ∨
     (copyStep fp uri ex w tr).trace.copies = tr.copies ++ [(fp, uri)]) := by
  rw [copyStep]
  by_cases hc : w.fail.copyFail.contains uri = true
  · rw [if_pos hc]; exact ⟨rfl, rfl, rfl, Or.inl rfl⟩
  · rw [if_neg hc]
    cases w.localFS.lookup fp with
    | none => exact ⟨rfl, rfl, rfl, Or.inl rfl⟩
    | some bs => exact ⟨rfl, rfl, rfl, Or.inr rfl⟩

/-- The exists-and-copy logic touches no mkdirs and addresses only the
target URI: at most one remote read of `uri`, at most one delete of
`uri`, at most one copy `(p, uri)`. -/
theorem existsCheck_trace (p uri : String) (w1 : World) (tr : Trace) :
    (existsCheckStep p uri w1 tr).trace.mkdirs = tr.mkdirs ∧
    ((existsCheckStep p uri w1 tr).trace.remoteReads = tr.remoteReads ∨
     (existsCheckStep p uri w1 tr).trace.remoteReads = tr.remoteReads ++ [uri]) ∧
    ((existsCheckStep p uri w1 tr).trace.deletes = tr.deletes ∨
     (existsCheckStep p uri w1 tr).trace.deletes = tr.deletes ++ [uri]) ∧
    ((existsCheckStep p uri w1 tr).trace.copies = tr.copies ∨
     (existsCheckStep p uri w1 tr).trace.copies = tr.copies ++ [(p, uri)]) := by
  rw [existsCheckStep]
  by_cases hex : (w1.remote.files.lookup uri).isSome = true
  · rw [if_pos hex]
    simp only [hashCheckStep]
    by_cases hcond : (get_remote_file_hash w1.remote w1.fail.remoteReadFail uri ≠ "" ∧
        get_remote_file_hash w1.remote w1.fail.remoteReadFail uri =
          compute_file_hash w1.localFS w1.fail.localReadFail p)
    · rw [if_pos hcond]
      exact ⟨rfl, Or.inr rfl, Or.inl rfl, Or.inl rfl⟩
    · rw [if_neg hcond]
      by_cases hdel : w1.fail.deleteFail.contains uri = true
      · rw [if_pos hdel]
        exact ⟨rfl, Or.inr rfl, Or.inl rfl, Or.inl rfl⟩
      · rw [if_neg hdel]
        have h := copyStep_trace p uri true
          { w1 with remote := { w1.remote with files := eraseKey uri w1.remote.files } }
          { { tr with remoteReads := tr.remoteReads ++ [uri] } with
              deletes := ({ tr with remoteReads := tr.remoteReads ++ [uri] }).deletes
                ++ [uri] }
        exact ⟨h.1, Or.inr h.2.1, Or.inr h.2.2.1, h.2.2.2⟩
  · rw [if_neg hex]
    have h := copyStep_trace p uri false w1 tr
    exact ⟨h.1, Or.inl h.2.1, Or.inl h.2.2.1, h.2.2.2⟩

/-- The sync body creates at most the one parent directory of the
target, and otherwise addresses only the target URI. -/
theorem syncBody_trace (cfg : Config) (p : String) (w1 : World) (tr : Trace) :
    ((syncBody cfg p w1 tr).trace.mkdirs = tr.mkdirs ∨
     ∃ pd, parentUri (remoteTargetUri cfg p) = some pd ∧
        (syncBody cfg p w1 tr).trace.mkdirs = tr.mkdirs ++ [pd]) ∧
    ((syncBody cfg p w1 tr).trace.remoteReads = tr.remoteReads ∨
     (syncBody cfg p w1 tr).trace.remoteReads =
        tr.remoteReads ++ [remoteTargetUri cfg p]) ∧
    ((syncBody cfg p w1 tr).trace.deletes = tr.deletes ∨
     (syncBody cfg p w1 tr).trace.deletes = tr.deletes ++ [remoteTargetUri cfg p]) ∧
    ((syncBody cfg p w1 tr).trace.copies = tr.copies ∨
     (syncBody cfg p w1 tr).trace.copies = tr.copies ++ [(p, remoteTargetUri cfg p)]) := by
  rcases hp : parentUri (remoteTargetUri cfg p) with - | pd
  · simp only [syncBody, hp]
    have h := existsCheck_trace p (remoteTargetUri cfg p) w1 tr
    exact ⟨Or.inl h.1, h.2.1, h.2.2.1, h.2.2.2⟩
  · by_cases hdir : w1.remote.dirs.contains pd = true
    · simp only [syncBody, hp, hdir, Bool.not_true, Bool.false_eq_true, if_false]
      have h := existsCheck_trace p (remoteTargetUri cfg p) w1 tr
      exact ⟨Or.inl h.1, h.2.1, h.2.2.1, h.2.2.2⟩
    · have hdir2 : w1.remote.dirs.contains pd = false := by
        cases hcd : w1.remote.dirs.contains pd
        · rfl
        · exact absurd hcd hdir
      simp only [syncBody, hp, hdir2, Bool.not_false, if_true]
      by_cases hmk : w1.fail.mkdirFail.contains pd = true
      · rw [if_pos hmk]
        exact ⟨Or.inl rfl, Or.inl rfl, Or.inl rfl, Or.inl rfl⟩
      · rw [if_neg hmk]
        have h := existsCheck_trace p (remoteTargetUri cfg p)
          { w1 with remote := { w1.remote with dirs := pd :: w1.remote.dirs } }
          { tr with mkdirs := tr.mkdirs ++ [pd] }
        exact ⟨Or.inr ⟨pd, rfl, h.1⟩, h.2.1, h.2.2.1, h.2.2.2⟩

/-- Elements of a list known to be nil or a singleton. -/
theorem mem_of_nil_or_singleton {α : Type} {l : List α} {x : α}
    (h : l = [] ∨ l = [x]) : ∀ u ∈ l, u = x := by
  rcases h with h | h <;> subst h <;> simp

/-- C5: every remote operation of a `sync_file` call addresses exactly
the remote target `google-drive://DRIVE_USER/` followed by the joined
remote folder and relative path with leading slashes stripped —
directory creation addresses only its parent — and on the example
configuration the file `/home/u/docs/a/b.txt` maps to
`google-drive://u@example/sync/docs/a/b.txt`. -/
theorem remote_mapping (cfg : Config) (w : World) (p : String) :
    (∀ d ∈ (sync_file cfg w p).trace.mkdirs,
        parentUri (remoteTargetUri cfg p) = some d) ∧
    (∀ u ∈ (sync_file cfg w p).trace.remoteReads, u = remoteTargetUri cfg p) ∧
    (∀ u ∈ (sync_file cfg w p).trace.deletes, u = remoteTargetUri cfg p) ∧
    (∀ c ∈ (sync_file cfg w p).trace.copies, c = (p, remoteTargetUri cfg p)) ∧
    remoteTargetUri
        { LOCAL_FOLDER := "/home/u/docs"
          GOOGLE_DRIVE_FOLDER := "sync/docs"
          DRIVE_USER := "u@example" } "/home/u/docs/a/b.txt" =
      "google-drive://u@example/sync/docs/a/b.txt" := by
  have hmain : ∀ (w1 : World) (tr : Trace), tr.mkdirs = [] → tr.remoteReads = [] →
      tr.deletes = [] → tr.copies = [] →
      (∀ d ∈ (syncBody cfg p w1 tr).trace.mkdirs,
          parentUri (remoteTargetUri cfg p) = some d) ∧
      (∀ u ∈ (syncBody cfg p w1 tr).trace.remoteReads, u = remoteTargetUri cfg p) ∧
      (∀ u ∈ (syncBody cfg p w1 tr).trace.deletes, u = remoteTargetUri cfg p) ∧
      (∀ c ∈ (syncBody cfg p w1 tr).trace.copies, c = (p, remoteTargetUri cfg p)) := by
    intro w1 tr h1 h2 h3 h4
    have h := syncBody_trace cfg p w1 tr
    refine ⟨?_, ?_, ?_, ?_⟩
    · rcases h.1 with hl | ⟨pd, hpd, hr⟩
      · rw [hl, h1]; intro d hd; cases hd
      · rw [hr, h1]
        intro d hd
        simp only [List.nil_append, List.mem_singleton] at hd
        rw [hd]
        exact hpd
    · refine mem_of_nil_or_singleton ?_
      rcases h.2.1 with hl | hr
      · exact Or.inl (by rw [hl, h2])
      · exact Or.inr (by rw [hr, h2]; rfl)
    · refine mem_of_nil_or_singleton ?_
      rcases h.2.2.1 with hl | hr
      · exact Or.inl (by rw [hl, h3])
      · exact Or.inr (by rw [hr, h3]; rfl)
    · refine mem_of_nil_or_singleton ?_
      rcases h.2.2.2 with hl | hr
      · exact Or.inl (by rw [hl, h4])
      · exact Or.inr (by rw [hr, h4]; rfl)
  have hexample : remoteTargetUri
      { LOCAL_FOLDER := "/home/u/docs"
        GOOGLE_DRIVE_FOLDER := "sync/docs"
        DRIVE_USER := "u@example" }
      "/home/u/docs/a/b.txt" = "google-drive://u@example/sync/docs/a/b.txt" := by decide
  rw [sync_file]
  by_cases ha : is_drive_available cfg.DRIVE_USER w.mounts = true
  · rw [if_pos ha]
    have h := hmain w Trace.empty rfl rfl rfl rfl
    exact ⟨h.1, h.2.1, h.2.2.1, h.2.2.2, hexample⟩
  · rw [if_neg ha]
    simp only
    by_cases hb : is_drive_available cfg.DRIVE_USER
        (mount_google_drive cfg.DRIVE_USER w.volumes w.mounts).2 = true
    · rw [if_pos hb]
      have h := hmain
        { w with mounts := (mount_google_drive cfg.DRIVE_USER w.volumes w.mounts).2 }
        { Trace.empty with
            mountReqs := (mount_google_drive cfg.DRIVE_USER w.volumes w.mounts).1 }
        rfl rfl rfl rfl
      exact ⟨h.1, h.2.1, h.2.2.1, h.2.2.2, hexample⟩
    · rw [if_neg hb]
      refine ⟨?_, ?_, ?_, ?_, hexample⟩ <;> intro x hx <;> cases hx

/-- Witness for C5: the delete issued at a differing remote object
addresses exactly the remote target of the local path. -/
theorem remote_mapping_witness :
    exUri = remoteTargetUri exCfg exPath :=
  (remote_mapping exCfg exWorldDiff exPath).2.2.1 exUri (by decide)

mutual
/-- Flattening the walk's per-directory file lists yields exactly the
recursive enumeration of regular files. -/
theorem walk_files_eq : ∀ (p : String) (t : FsTree),
    (walk p t).flatMap (fun rf => rf.2.map (fun f => pathJoin rf.1 f)) = filesRec p t
  | p, FsTree.node files subs => by
    rw [walk, filesRec, List.flatMap_cons, walkList_files_eq p subs]

/-- The same, over a list of named subdirectories. -/
theorem walkList_files_eq : ∀ (p : String) (l : List (String × FsTree)),
    (walkList p l).flatMap (fun rf => rf.2.map (fun f => pathJoin rf.1 f)) = filesRecList p l
  | _, [] => by rw [walkList, filesRecList]; rfl
  | p, (n, t) :: rest => by
    rw [walkList, filesRecList, List.flatMap_append, walk_files_eq (pathJoin p n) t,
      walkList_files_eq p rest]
end

/-- C8: when the up-front availability check passes, `sync_all_files`
hands `sync_file` exactly the recursively enumerated regular files of
the local tree: once per file when the enumeration has no duplicates,
and never a directory entry. -/
theorem sync_all_completeness (cfg : Config) (t : FsTree) (w : World)
    (h : is_drive_available cfg.DRIVE_USER w.mounts = true) :
    (sync_all_files cfg t w).invoked = filesRec cfg.LOCAL_FOLDER t ∧
    ((filesRec cfg.LOCAL_FOLDER t).Nodup →
      ∀ f ∈ filesRec cfg.LOCAL_FOLDER t,
        (sync_all_files cfg t w).invoked.count f = 1) ∧
    (∀ d ∈ dirPaths cfg.LOCAL_FOLDER t, d ∉ filesRec cfg.LOCAL_FOLDER t →
      d ∉ (sync_all_files cfg t w).invoked) := by
  have hinv : (sync_all_files cfg t w).invoked = filesRec cfg.LOCAL_FOLDER t := by
    rw [sync_all_files, if_pos h]
    exact walk_files_eq cfg.LOCAL_FOLDER t
  refine ⟨hinv, ?_, ?_⟩
  · intro hnd f hf
    rw [hinv]
    exact List.count_eq_one_of_mem hnd hf
  · intro d _ hdf
    rw [hinv]
    exact hdf

/-- Witness for C8 on a two-level tree with a mounted drive. -/
theorem sync_all_completeness_witness :
    (sync_all_files exCfg
        (FsTree.node ["f.txt"] [("s", FsTree.node ["g.txt"] [])]) exWorldNew).invoked =
      filesRec exCfg.LOCAL_FOLDER
        (FsTree.node ["f.txt"] [("s", FsTree.node ["g.txt"] [])]) ∧
    (sync_all_files exCfg
        (FsTree.node ["f.txt"] [("s", FsTree.node ["g.txt"] [])]) exWorldNew).invoked.count
        "/home/u/docs/s/g.txt" = 1 :=
  have h := sync_all_completeness exCfg
    (FsTree.node ["f.txt"] [("s", FsTree.node ["g.txt"] [])]) exWorldNew (by decide)
  ⟨h.1, h.2.1 (by decide) "/home/u/docs/s/g.txt" (by decide)⟩

end DriveSync
